import Mathlib

/-!
# Daily work-session (shift) ledger

A shallow embedding of `backend/controllers/shiftController.js` and
`backend/models/Shift.js`: the three request handlers `openShift`,
`closeShift` and `getSummary` become pure functions from the request's
ambient readings (the clock, the authenticated worker) and the collections
they read to a response and the new `Shift` collection.

Conventions of the embedding:
* `closeShift`, `revenueLoop` and `lineAmount` compute on rationals, in exact
  arithmetic, and read `priceMap` by its own properties; `closeShiftJS`,
  `revenueLoopJS` and `lineAmountJS` embed the same lines with the numbers of
  JavaScript (rounding to the nearest double, `NaN`, the prototype chain of
  `priceMap`), and agree with the former when nothing is rounded and no
  inherited property is read (`closeShiftJS_eq_closeShift`);
* a `Date` is its number of milliseconds since the epoch, and the day key
  `YYYY-MM-DD` is the number of that day counted from 1970-01-01, so that
  `new Date(key + 'T00:00:00.000Z')` is `key * 86400000`;
* a collection is the list of its documents in natural order; a document is
  identified by its position (documents are never deleted), and the
  bookkeeping fields mongoose adds (`_id`, `createdAt`, `updatedAt`) are left
  out;
* the `catch` branches (status 500) answer a failure of the database driver
  and are not part of the embedding, except for the refusal of a `NaN` total
  by `shift.save()`, which `closeShiftJS` follows.
-/

namespace Pff10

/-- The `_id` of a user document. -/
abbrev WorkerId := Nat

/-- The day key `YYYY-MM-DD`, as the number of the day since 1970-01-01. -/
abbrev DateKey := Int

/-- A `Date`, as milliseconds since the epoch. -/
abbrev Time := Int

/-- A document of the `Shift` collection (`shiftSchema`). `closedAt` is the only
optional path; `totalCount` and `totalRevenue` default to 0. -/
structure Shift where
  worker : WorkerId
  date : DateKey
  openedAt : Time
  closedAt : Option Time
  totalCount : Nat
  totalRevenue : ℚ
deriving DecidableEq

/-- Modelled from the spec: the status enumeration of a reservation (the
`Reservation` model is not among the sources); the controller names the
values `accepted` and `done`. -/
inductive Status where
  | pending
  | accepted
  | rejected
  | done
deriving DecidableEq

/-- One line item `{ name, quantity }` of a reservation (`ServiceItem` in the
dashboard page); `quantity` may be unset. -/
structure ServiceItem where
  name : String
  quantity : Option ℚ
deriving DecidableEq

/-- Modelled from the spec: a reservation document (the `Reservation` model is
not among the sources), with the paths the controller reads: `worker`
(possibly unset), `datetime`, `status` and the line items `services`. -/
structure Reservation where
  worker : Option WorkerId
  datetime : Time
  status : Status
  services : List ServiceItem
deriving DecidableEq

/-- Modelled from the spec: a catalog entry `{ name, price }` (the `Service`
model is not among the sources). -/
structure Service where
  name : String
  price : ℚ
deriving DecidableEq

/-- The body passed to `res.json`. -/
inductive Body where
  | message (text : String)
  | shift (shift : Shift)
  | summary (shift : Option Shift) (reservations : List Reservation)
deriving DecidableEq

/-- What a handler answers: the HTTP status and the JSON body. -/
structure Response where
  status : Nat
  body : Body
deriving DecidableEq

/-- The value of `new Date(todayKey + 'T00:00:00.000Z')`. -/
def dayStart (todayKey : DateKey) : Time := todayKey * 86400000

/-- The value of `new Date(todayKey + 'T23:59:59.999Z')`. -/
def dayEnd (todayKey : DateKey) : Time := todayKey * 86400000 + 86399999

/-- The query `{ worker: workerId, date: todayKey }` on a shift document. -/
def matchesKey (workerId : WorkerId) (todayKey : DateKey) (s : Shift) : Bool :=
  decide (s.worker = workerId) && decide (s.date = todayKey)

/-- The call `Shift.findOne({ worker: workerId, date: todayKey })`: the first
matching document of the collection. -/
def findOne (shifts : List Shift) (workerId : WorkerId) (todayKey : DateKey) : Option Shift :=
  shifts.find? (matchesKey workerId todayKey)

/-- The call `shift.save()` on the document that `findOne` loaded: that
document, the first one matching the key, is written back with its new
content; every other document is left as it is. -/
def save (workerId : WorkerId) (todayKey : DateKey) (shift : Shift) : List Shift → List Shift
  | [] => []
  | s :: rest =>
    if matchesKey workerId todayKey s then shift :: rest
    else s :: save workerId todayKey shift rest

/-- The call `Shift.create(doc)`: the document is added to the collection. -/
def create (shift : Shift) (shifts : List Shift) : List Shift := shifts ++ [shift]

/-- The datetime range `{ $gte: dayStart, $lte: dayEnd }` of both reservation
queries. -/
def inDay (todayKey : DateKey) (r : Reservation) : Bool :=
  decide (dayStart todayKey ≤ r.datetime) && decide (r.datetime ≤ dayEnd todayKey)

/-- The filter of the reservation query in `closeShift`: the worker, the
status among `accepted` and `done`, and the datetime range. -/
def settledQuery (workerId : WorkerId) (todayKey : DateKey) (r : Reservation) : Bool :=
  decide (r.worker = some workerId)
    && (decide (r.status = Status.accepted) || decide (r.status = Status.done))
    && inDay todayKey r

/-- The filter of the reservation query in `getSummary`: the worker and the
datetime range, whatever the status. -/
def dayQuery (workerId : WorkerId) (todayKey : DateKey) (r : Reservation) : Bool :=
  decide (r.worker = some workerId) && inDay todayKey r

/-- The own properties of the object `priceMap` after
`services.forEach((s) => { priceMap[s.name] = s.price; })`: for each name the
price assigned last, and none for a name the catalog lacks. The read through
the prototype chain, and the assignment to `__proto__`, which creates no
property, are those of `priceMapRead`. -/
def priceMap (services : List Service) : String → Option ℚ :=
  services.foldl (fun m s => fun n => if n = s.name then some s.price else m n) (fun _ => none)

/-- The JavaScript `x || d` on a number that may be undefined: `d` when `x` is
undefined or 0, else `x`. -/
def orDefault (x : Option ℚ) (d : ℚ) : ℚ :=
  match x with
  | none => d
  | some v => if v = 0 then d else v

/-- The amount one line item adds: `(priceMap[s.name] || 0) * (s.quantity || 1)`. -/
def lineAmount (pm : String → Option ℚ) (s : ServiceItem) : ℚ :=
  orDefault (pm s.name) 0 * orDefault s.quantity 1

/-- The two nested `forEach` loops of `closeShift`, accumulating into
`totalRevenue`, which starts at 0, in exact arithmetic (`revenueLoopJS` rounds
each product and each sum to a double). -/
def revenueLoop (pm : String → Option ℚ) (reservations : List Reservation) : ℚ :=
  reservations.foldl
    (fun total r => r.services.foldl (fun total s => total + lineAmount pm s) total) 0

/-- The handler `openShift`, given the reading `now` of `new Date()`, the day
key `todayKey` of `dayjs().format('YYYY-MM-DD')` and `req.user.id`. -/
def openShift (now : Time) (todayKey : DateKey) (workerId : WorkerId)
    (shifts : List Shift) : Response × List Shift :=
  match findOne shifts workerId todayKey with
  | some shift =>
    if shift.closedAt.isNone then
      (⟨400, Body.message "Une journée est déjà ouverte."⟩, shifts)
    else
      let shift1 : Shift :=
        { shift with openedAt := now, closedAt := none, totalCount := 0, totalRevenue := 0 }
      (⟨201, Body.shift shift1⟩, save workerId todayKey shift1 shifts)
  | none =>
    let shift : Shift :=
      { worker := workerId, date := todayKey, openedAt := now, closedAt := none,
        totalCount := 0, totalRevenue := 0 }
    (⟨201, Body.shift shift⟩, create shift shifts)

/-- The handler `closeShift`, given the same readings, the `Reservation`
collection and the `Service` collection as they are at the time of the call,
with the settlement in exact arithmetic on the own properties of `priceMap`
(`closeShiftJS` is the handler with the numbers of JavaScript). -/
def closeShift (now : Time) (todayKey : DateKey) (workerId : WorkerId)
    (reservations : List Reservation) (services : List Service)
    (shifts : List Shift) : Response × List Shift :=
  match findOne shifts workerId todayKey with
  | none => (⟨400, Body.message "Aucune journée ouverte."⟩, shifts)
  | some shift =>
    if shift.closedAt.isSome then
      (⟨400, Body.message "Aucune journée ouverte."⟩, shifts)
    else
      let found := reservations.filter (settledQuery workerId todayKey)
      let totalRevenue := revenueLoop (priceMap services) found
      let shift1 : Shift :=
        { shift with closedAt := some now, totalCount := found.length,
                     totalRevenue := totalRevenue }
      (⟨200, Body.shift shift1⟩, save workerId todayKey shift1 shifts)

/-- The handler `getSummary`: the shift of the day, if any, with the worker's
reservations of the day; it writes nothing. -/
def getSummary (todayKey : DateKey) (workerId : WorkerId)
    (reservations : List Reservation) (shifts : List Shift) : Response × List Shift :=
  (⟨200, Body.summary (findOne shifts workerId todayKey)
      (reservations.filter (dayQuery workerId todayKey))⟩, shifts)

/-! ## The handler with the numbers of JavaScript

`lineAmount`, `revenueLoop` and `closeShift` above compute in exact arithmetic
and read `priceMap` by its own properties. The definitions of this section
embed the same lines with what JavaScript does there: `*` and `+=` round to
the nearest double, a non-number operand gives `NaN`, and the read
`priceMap[s.name]` follows the prototype chain of the object `{}`. -/

/-- The power of two `2 ^ k`, for an integer `k`. -/
def pow2 (k : ℤ) : ℚ :=
  if 0 ≤ k then ((2 ^ k.toNat : ℕ) : ℚ) else 1 / ((2 ^ (-k).toNat : ℕ) : ℚ)

/-- The integer nearest to `y`, the even one of the two when `y` lies half way. -/
def roundHalfEven (y : ℚ) : ℤ :=
  if y - (Rat.floor y : ℚ) < 1 / 2 then Rat.floor y
  else if 1 / 2 < y - (Rat.floor y : ℚ) then Rat.floor y + 1
  else if Rat.floor y % 2 = 0 then Rat.floor y else Rat.floor y + 1

/-- The number of halvings that bring `n` below 2, at most `fuel` of them: with
`fuel = n` it is the position of the leading bit of `n`. -/
def log2Fuel : Nat → Nat → Nat
  | 0, _ => 0
  | fuel + 1, n => if n < 2 then 0 else log2Fuel fuel (n / 2) + 1

/-- The exponent `e` with `2 ^ e ≤ x < 2 ^ (e + 1)`, for a positive `x`. -/
def floorLog2 (x : ℚ) : ℤ :=
  if pow2 ((log2Fuel x.num.natAbs x.num.natAbs : ℤ) - (log2Fuel x.den x.den : ℤ)) ≤ x then
    (log2Fuel x.num.natAbs x.num.natAbs : ℤ) - (log2Fuel x.den x.den : ℤ)
  else (log2Fuel x.num.natAbs x.num.natAbs : ℤ) - (log2Fuel x.den x.den : ℤ) - 1

/-- The double nearest to the exact result `x` of an operation (IEEE 754
binary64, round to nearest, ties to even): 53 significant bits, exponents from
-1022 (below, the spacing stays `2 ^ (-1074)`), and `none` when the result
reaches `2 ^ 1024`, where JavaScript gives an infinity. -/
def roundDouble (x : ℚ) : Option ℚ :=
  if x = 0 then some 0
  else
    let ulp := pow2 (max (floorLog2 |x|) (-1022) - 52)
    let r := (roundHalfEven (|x| / ulp) : ℚ) * ulp
    if pow2 1024 ≤ r then none else some (if x < 0 then -r else r)

/-- A Number as an operand of the settlement: a finite double, by its value, or
`NaN`. -/
inductive JSNumber where
  | finite (value : ℚ)
  | nan
deriving DecidableEq

/-- The product `x * y` of two Numbers; `none` when it is an infinity, which the
embedding does not follow further. -/
def jsMul : JSNumber → JSNumber → Option JSNumber
  | JSNumber.finite a, JSNumber.finite b => (roundDouble (a * b)).map JSNumber.finite
  | _, _ => some JSNumber.nan

/-- The sum `x + y` of two Numbers; `none` when it is an infinity. -/
def jsAdd : JSNumber → JSNumber → Option JSNumber
  | JSNumber.finite a, JSNumber.finite b => (roundDouble (a + b)).map JSNumber.finite
  | _, _ => some JSNumber.nan

/-- The names of the properties every object inherits from `Object.prototype`. -/
def inheritedNames : List String :=
  ["constructor", "__defineGetter__", "__defineSetter__", "hasOwnProperty",
   "__lookupGetter__", "__lookupSetter__", "isPrototypeOf", "propertyIsEnumerable",
   "toString", "valueOf", "__proto__", "toLocaleString"]

/-- What a read of a property of `priceMap` gives when the property exists: a
price assigned by the loop, or an inherited function or object. -/
inductive PropertyValue where
  | number (value : ℚ)
  | object
deriving DecidableEq

/-- The read `priceMap[name]`: the own property when the loop assigned one (an
assignment to `__proto__` creates none), else the inherited property of that
name, else `undefined` (`none`). -/
def priceMapRead (services : List Service) (name : String) : Option PropertyValue :=
  match (if name = "__proto__" then none else priceMap services name) with
  | some v => some (PropertyValue.number v)
  | none => if name ∈ inheritedNames then some PropertyValue.object else none

/-- The operand `(priceMap[s.name] || 0)` of the product: 0 for `undefined` and
for the price 0, the price otherwise, and `NaN` for an inherited function or
object, which is truthy and is no number. -/
def priceOperand : Option PropertyValue → JSNumber
  | none => JSNumber.finite 0
  | some (PropertyValue.number v) => JSNumber.finite v
  | some PropertyValue.object => JSNumber.nan

/-- The product `(priceMap[s.name] || 0) * (s.quantity || 1)`. -/
def lineAmountJS (services : List Service) (s : ServiceItem) : Option JSNumber :=
  jsMul (priceOperand (priceMapRead services s.name)) (JSNumber.finite (orDefault s.quantity 1))

/-- The statement `totalRevenue += (priceMap[s.name] || 0) * (s.quantity || 1)`. -/
def accumulateJS (services : List Service) (total : Option JSNumber) (s : ServiceItem) :
    Option JSNumber :=
  total.bind fun t => (lineAmountJS services s).bind fun a => jsAdd t a

/-- The two nested `forEach` loops of `closeShift`, from `totalRevenue = 0`. -/
def revenueLoopJS (services : List Service) (reservations : List Reservation) :
    Option JSNumber :=
  reservations.foldl (fun total r => r.services.foldl (accumulateJS services) total)
    (some (JSNumber.finite 0))

/-- The handler `closeShift` with the numbers of JavaScript. A total that is
`NaN` is refused by `shift.save()` (the path is a `Number`), and the `catch`
branch answers 500 with nothing written. The result is `none` when an infinity
arises in the loop. -/
def closeShiftJS (now : Time) (todayKey : DateKey) (workerId : WorkerId)
    (reservations : List Reservation) (services : List Service)
    (shifts : List Shift) : Option (Response × List Shift) :=
  match findOne shifts workerId todayKey with
  | none => some (⟨400, Body.message "Aucune journée ouverte."⟩, shifts)
  | some shift =>
    if shift.closedAt.isSome then
      some (⟨400, Body.message "Aucune journée ouverte."⟩, shifts)
    else
      let found := reservations.filter (settledQuery workerId todayKey)
      match revenueLoopJS services found with
      | none => none
      | some JSNumber.nan =>
        some (⟨500, Body.message "Erreur lors de la fermeture de la journée"⟩, shifts)
      | some (JSNumber.finite totalRevenue) =>
        let shift1 : Shift :=
          { shift with closedAt := some now, totalCount := found.length,
                       totalRevenue := totalRevenue }
        some (⟨200, Body.shift shift1⟩, save workerId todayKey shift1 shifts)

/-! ## The scenario of the specification -/

/-- Worker `W` of the scenario. -/
def exWorker : WorkerId := 7

/-- Day `D` of the scenario. -/
def exDay : DateKey := 20000

/-- Reservation R1: accepted, two `Wash`. -/
def exR1 : Reservation :=
  { worker := some exWorker, datetime := dayStart exDay + 36000000, status := Status.accepted,
    services := [{ name := "Wash", quantity := some 2 }] }

/-- Reservation R2: done, one `Wax`. -/
def exR2 : Reservation :=
  { worker := some exWorker, datetime := dayStart exDay + 50400000, status := Status.done,
    services := [{ name := "Wax", quantity := some 1 }] }

/-- Reservation R3: pending, same worker and day. -/
def exR3 : Reservation :=
  { worker := some exWorker, datetime := dayStart exDay + 54000000, status := Status.pending,
    services := [{ name := "Wash", quantity := some 1 }] }

/-- The catalog of the scenario: Wash = 20, Wax = 15. -/
def exCatalog : List Service := [{ name := "Wash", price := 20 }, { name := "Wax", price := 15 }]

/-- The session of the scenario, opened at `T0` and still open. -/
def exOpenShift : Shift :=
  { worker := exWorker, date := exDay, openedAt := dayStart exDay + 28800000, closedAt := none,
    totalCount := 0, totalRevenue := 0 }

/-- The price function of the scenario's catalog. -/
def exPrice (n : String) : ℚ := if n = "Wash" then 20 else if n = "Wax" then 15 else 0

/-! ## Definitions used to state the properties -/

/-- The amount the inner loop adds for one reservation. -/
def reservationAmount (pm : String → Option ℚ) (r : Reservation) : ℚ :=
  (r.services.map (lineAmount pm)).sum

/-- The reservation `r` with the line items `items`. -/
def withItems (r : Reservation) (items : List ServiceItem) : Reservation :=
  { r with services := items }

/-- The session of the scenario once closed with the totals 2 and 55. -/
def exClosedShift : Shift :=
  { exOpenShift with closedAt := some (dayEnd exDay), totalCount := 2, totalRevenue := 55 }

/-- One request to the shift routes, with the ambient readings of its handler
and the collections it reads as they are when it is served. -/
inductive Call where
  | openShift (now : Time) (todayKey : DateKey) (workerId : WorkerId)
  | closeShift (now : Time) (todayKey : DateKey) (workerId : WorkerId)
      (reservations : List Reservation) (services : List Service)
  | getSummary (todayKey : DateKey) (workerId : WorkerId) (reservations : List Reservation)

/-- Serving one request on the `Shift` collection. -/
def serve (c : Call) (shifts : List Shift) : Response × List Shift :=
  match c with
  | Call.openShift now todayKey workerId => openShift now todayKey workerId shifts
  | Call.closeShift now todayKey workerId reservations services =>
    closeShift now todayKey workerId reservations services shifts
  | Call.getSummary todayKey workerId reservations =>
    getSummary todayKey workerId reservations shifts

/-- The `Shift` collection after the requests `calls`, served one after another. -/
def serveAll (calls : List Call) (shifts : List Shift) : List Shift :=
  calls.foldl (fun st c => (serve c st).2) shifts

/-- The number of session records of a worker and day. -/
def sessionCount (shifts : List Shift) (w : WorkerId) (d : DateKey) : Nat :=
  shifts.countP (matchesKey w d)

/-- The number of session records of a worker and day in the Open state. -/
def openCount (shifts : List Shift) (w : WorkerId) (d : DateKey) : Nat :=
  shifts.countP (fun s => matchesKey w d s && s.closedAt.isNone)

/-- At most one session record per worker and day. -/
def OnePerKey (shifts : List Shift) : Prop :=
  ∀ w d, sessionCount shifts w d ≤ 1

/-- The reservation `r2` is `r` with its line items in another order. -/
def SameUpToItemOrder (r r2 : Reservation) : Prop :=
  r2.worker = r.worker ∧ r2.datetime = r.datetime ∧ r2.status = r.status ∧
    r.services.Perm r2.services

/-- Reservation R4: accepted, one `Wash` and two `Wax`. -/
def exR4 : Reservation :=
  { worker := some exWorker, datetime := dayStart exDay + 43200000, status := Status.accepted,
    services := [{ name := "Wash", quantity := some 1 }, { name := "Wax", quantity := some 2 }] }

/-- Reservation R4 with its two line items in the other order. -/
def exR4swapped : Reservation :=
  { worker := some exWorker, datetime := dayStart exDay + 43200000, status := Status.accepted,
    services := [{ name := "Wax", quantity := some 2 }, { name := "Wash", quantity := some 1 }] }

/-- Modelled from the spec: the transitions the reservation status state machine
allows (the reservation controller is not among the sources): pending to
accepted, pending to rejected, accepted to done, and no other. -/
def allowedTransition : Status → Status → Bool
  | Status.pending, Status.accepted => true
  | Status.pending, Status.rejected => true
  | Status.accepted, Status.done => true
  | _, _ => false

/-- Modelled from the spec: the validation errors of a status transition request
(the reservation controller is not among the sources). -/
inductive TransitionError where
  | invalidTransition
  | unauthorized
deriving DecidableEq

/-- Modelled from the spec: how a status transition request ends (the reservation
controller is not among the sources). -/
inductive TransitionOutcome where
  | ok
  | failed (error : TransitionError)
deriving DecidableEq

/-- Modelled from the spec: the handler of `PATCH /api/worker/reservations/:id`,
which the dashboard calls and which is not among the sources. A requested
transition outside the allowed ones fails with `InvalidTransition` and leaves
the reservation as it is. Only the assigned worker may drive an allowed
transition; accepting assigns the acting worker when the reservation is
unassigned. -/
def requestTransition (actor : WorkerId) (r : Reservation) (target : Status) :
    TransitionOutcome × Reservation :=
  if allowedTransition r.status target then
    match target with
    | Status.accepted =>
      if r.worker = none ∨ r.worker = some actor then
        (TransitionOutcome.ok, { r with worker := some actor, status := Status.accepted })
      else (TransitionOutcome.failed TransitionError.unauthorized, r)
    | _ =>
      if r.worker = some actor then (TransitionOutcome.ok, { r with status := target })
      else (TransitionOutcome.failed TransitionError.unauthorized, r)
  else (TransitionOutcome.failed TransitionError.invalidTransition, r)

/-- The statuses the action buttons of the worker dashboard request for a
reservation of status `status` (`page.tsx`): `Accepter` and `Refuser` when
`r.status === "pending"`, `Terminer` when `r.status === "accepted"`, and no
button otherwise. -/
def offeredActions (status : Status) : List Status :=
  (if status = Status.pending then [Status.accepted, Status.rejected] else [])
    ++ (if status = Status.accepted then [Status.done] else [])

/-- The line items of the reservations, in the order the loops visit them. -/
def lineItems : List Reservation → List ServiceItem
  | [] => []
  | r :: rest => r.services ++ lineItems rest

/-- The exact values the accumulation goes through from `total`, for the exact
amounts `amounts` of the line items: each product, then each partial sum. -/
def partialValues : ℚ → List ℚ → List ℚ
  | _, [] => []
  | total, a :: rest => a :: (total + a) :: partialValues (total + a) rest

/-- The double nearest to 0.1. -/
def exTenth : ℚ := 3602879701896397 / 36028797018963968

/-- The double nearest to 0.2. -/
def exFifth : ℚ := 3602879701896397 / 18014398509481984

/-- A catalog with the prices 0.1 and 0.2. -/
def exCentsCatalog : List Service :=
  [{ name := "Rinse", price := exTenth }, { name := "Dry", price := exFifth }]

/-- The price function of the catalog with the prices 0.1 and 0.2. -/
def exCentsPrice (n : String) : ℚ :=
  if n = "Rinse" then exTenth else if n = "Dry" then exFifth else 0

/-- Reservation R5: accepted, one `Rinse` and one `Dry`. -/
def exR5 : Reservation :=
  { worker := some exWorker, datetime := dayStart exDay + 36000000, status := Status.accepted,
    services := [{ name := "Rinse", quantity := some 1 }, { name := "Dry", quantity := some 1 }] }

/-- Reservation R6: accepted, two `Wash` and one `constructor`, a name the
catalog lacks. -/
def exR6 : Reservation :=
  { worker := some exWorker, datetime := dayStart exDay + 36000000, status := Status.accepted,
    services := [{ name := "Wash", quantity := some 2 },
                 { name := "constructor", quantity := some 1 }] }

/-- The session of the scenario once closed on R5: the total stored for
0.1 + 0.2 is the double 0.30000000000000004. -/
def exCentsClosedShift : Shift :=
  { exOpenShift with
    closedAt := some (dayEnd exDay), totalCount := 1,
    totalRevenue := 1351079888211149 / 4503599627370496 }

/-! ## Lemmas on the collection operations -/

theorem findOne_matches {shifts : List Shift} {w : WorkerId} {d : DateKey} {s : Shift}
    (h : findOne shifts w d = some s) : s.worker = w ∧ s.date = d := by
  have hm : matchesKey w d s = true := List.find?_some h
  simpa [matchesKey] using hm

theorem findOne_split {shifts : List Shift} {w : WorkerId} {d : DateKey} {s : Shift}
    (h : findOne shifts w d = some s) :
    ∃ pre post, shifts = pre ++ s :: post ∧ (∀ x ∈ pre, matchesKey w d x = false) := by
  induction shifts with
  | nil => simp [findOne] at h
  | cons x rest ih =>
    by_cases hx : matchesKey w d x = true
    · have hs : x = s := by simpa [findOne, List.find?, hx] using h
      exact ⟨[], rest, by simp [hs], by simp⟩
    · have hx2 : matchesKey w d x = false := by simpa using hx
      have h2 : findOne rest w d = some s := by simpa [findOne, List.find?, hx2] using h
      obtain ⟨pre, post, hsplit, hpre⟩ := ih h2
      refine ⟨x :: pre, post, by simp [hsplit], ?_⟩
      intro y hy
      rcases List.mem_cons.1 hy with hy | hy
      · simpa [hy] using hx2
      · exact hpre y hy

theorem save_split (w : WorkerId) (d : DateKey) (s1 s : Shift) (pre post : List Shift)
    (hpre : ∀ x ∈ pre, matchesKey w d x = false) (hs : matchesKey w d s = true) :
    save w d s1 (pre ++ s :: post) = pre ++ s1 :: post := by
  induction pre with
  | nil => simp [save, hs]
  | cons x rest ih =>
    have hx : matchesKey w d x = false := hpre x (by simp)
    have := ih (fun y hy => hpre y (by simp [hy]))
    simp [save, hx, this]

theorem findOne_split_eq (w : WorkerId) (d : DateKey) (s : Shift) (pre post : List Shift)
    (hpre : ∀ x ∈ pre, matchesKey w d x = false) (hs : matchesKey w d s = true) :
    findOne (pre ++ s :: post) w d = some s := by
  induction pre with
  | nil => simp [findOne, List.find?, hs]
  | cons x rest ih =>
    have hx : matchesKey w d x = false := hpre x (by simp)
    have := ih (fun y hy => hpre y (by simp [hy]))
    simpa [findOne, List.find?, hx] using this

theorem findOne_eq_none_iff (shifts : List Shift) (w : WorkerId) (d : DateKey) :
    findOne shifts w d = none ↔ shifts.countP (matchesKey w d) = 0 := by
  simp [findOne, List.find?_eq_none, List.countP_eq_zero]

/-- Writing back a document of the same key at the place of the loaded one keeps,
for every key, the number of documents of that key. -/
theorem countP_save (w : WorkerId) (d : DateKey) (s s1 : Shift) (shifts : List Shift)
    (h : findOne shifts w d = some s) (hw : s1.worker = s.worker) (hd : s1.date = s.date)
    (w2 : WorkerId) (d2 : DateKey) :
    (save w d s1 shifts).countP (matchesKey w2 d2) = shifts.countP (matchesKey w2 d2) := by
  obtain ⟨pre, post, hsplit, hpre⟩ := findOne_split h
  have hs : matchesKey w d s = true := List.find?_some h
  subst hsplit
  rw [save_split w d s1 s pre post hpre hs]
  have hk : matchesKey w2 d2 s1 = matchesKey w2 d2 s := by simp [matchesKey, hw, hd]
  simp [List.countP_append, List.countP_cons, hk]

/-- In a collection with at most one record per worker and day, a record of the
key is the one `findOne` loads. -/
theorem findOne_of_mem (shifts : List Shift) (h : OnePerKey shifts) (s : Shift)
    (w : WorkerId) (d : DateKey) (hs : s ∈ shifts) (hk : matchesKey w d s = true) :
    findOne shifts w d = some s := by
  induction shifts with
  | nil => simp at hs
  | cons x rest ih =>
    have hcount := h w d
    unfold sessionCount at hcount
    by_cases hx : matchesKey w d x = true
    · rcases List.mem_cons.1 hs with hsx | hsr
      · subst hsx
        simp [findOne, List.find?, hx]
      · have hpos : 0 < rest.countP (matchesKey w d) := List.countP_pos_iff.2 ⟨s, hsr, hk⟩
        rw [List.countP_cons_of_pos _ _ hx] at hcount
        omega
    · have hx2 : matchesKey w d x = false := by simpa using hx
      have hsr : s ∈ rest := by
        rcases List.mem_cons.1 hs with hsx | hsr
        · subst hsx
          exact absurd hk hx
        · exact hsr
      have hrest : OnePerKey rest := by
        intro w2 d2
        have := h w2 d2
        unfold sessionCount at this ⊢
        rw [List.countP_cons] at this
        omega
      have := ih hrest hsr
      simpa [findOne, List.find?, hx2] using this

/-! ## Lemmas on the settlement -/

theorem foldl_add_eq_sum {α : Type} (f : α → ℚ) (l : List α) (a : ℚ) :
    l.foldl (fun total s => total + f s) a = a + (l.map f).sum := by
  induction l generalizing a with
  | nil => simp
  | cons x rest ih => simp [ih, add_assoc]

theorem revenueLoop_eq_sum (pm : String → Option ℚ) (rs : List Reservation) :
    revenueLoop pm rs = (rs.map (reservationAmount pm)).sum := by
  have h : revenueLoop pm rs = rs.foldl (fun total r => total + reservationAmount pm r) 0 := by
    unfold revenueLoop reservationAmount
    congr 1
    funext total r
    exact foldl_add_eq_sum (lineAmount pm) r.services total
  rw [h, foldl_add_eq_sum]
  simp

theorem priceMap_foldl_absent (services : List Service) (n : String) (m0 : String → Option ℚ)
    (h : ∀ e ∈ services, e.name ≠ n) :
    services.foldl (fun m s => fun k => if k = s.name then some s.price else m k) m0 n = m0 n := by
  induction services generalizing m0 with
  | nil => rfl
  | cons e rest ih =>
    have he : n ≠ e.name := fun hne => h e (by simp) hne.symm
    rw [List.foldl_cons, ih _ (fun x hx => h x (by simp [hx]))]
    simp [he]

theorem priceMap_foldl_present (services : List Service) (n : String) (price : String → ℚ)
    (m0 : String → Option ℚ) (hprice : ∀ e ∈ services, e.price = price e.name)
    (h : m0 n = some (price n) ∨ ∃ e ∈ services, e.name = n) :
    services.foldl (fun m s => fun k => if k = s.name then some s.price else m k) m0 n
      = some (price n) := by
  induction services generalizing m0 with
  | nil => simpa using h
  | cons e rest ih =>
    rw [List.foldl_cons]
    apply ih _ (fun x hx => hprice x (by simp [hx]))
    by_cases hn : n = e.name
    · left
      simp [hn, hprice e (by simp)]
    · rcases h with h | ⟨x, hx, hxn⟩
      · left
        simp [hn, h]
      · rcases List.mem_cons.1 hx with hx | hx
        · exact absurd (by rw [← hxn, hx]) hn
        · exact Or.inr ⟨x, hx, hxn⟩

/-- A name the catalog lacks has no entry in `priceMap`. -/
theorem priceMap_absent (services : List Service) (n : String)
    (h : ∀ e ∈ services, e.name ≠ n) : priceMap services n = none :=
  priceMap_foldl_absent services n _ h

/-- A name of the catalog is mapped to its catalog price. -/
theorem priceMap_present (services : List Service) (n : String) (price : String → ℚ)
    (hprice : ∀ e ∈ services, e.price = price e.name) (h : ∃ e ∈ services, e.name = n) :
    priceMap services n = some (price n) :=
  priceMap_foldl_present services n price _ hprice (Or.inr h)

/-- What `closeShift` answers and stores when the session of the day is open. -/
theorem closeShift_of_open (now : Time) (todayKey : DateKey) (workerId : WorkerId)
    (reservations : List Reservation) (services : List Service) (shifts : List Shift)
    (shift : Shift) (h : findOne shifts workerId todayKey = some shift)
    (hc : shift.closedAt = none) :
    closeShift now todayKey workerId reservations services shifts =
      (⟨200, Body.shift { shift with
          closedAt := some now,
          totalCount := (reservations.filter (settledQuery workerId todayKey)).length,
          totalRevenue := revenueLoop (priceMap services)
            (reservations.filter (settledQuery workerId todayKey)) }⟩,
       save workerId todayKey { shift with
          closedAt := some now,
          totalCount := (reservations.filter (settledQuery workerId todayKey)).length,
          totalRevenue := revenueLoop (priceMap services)
            (reservations.filter (settledQuery workerId todayKey)) } shifts) := by
  simp [closeShift, h, hc]

/-- A call of `closeShift` that answers 200 found the session of the day open. -/
theorem closeShift_ok_open (now : Time) (todayKey : DateKey) (workerId : WorkerId)
    (reservations : List Reservation) (services : List Service) (shifts : List Shift)
    (hok : (closeShift now todayKey workerId reservations services shifts).1.status = 200) :
    ∃ s, findOne shifts workerId todayKey = some s ∧ s.closedAt = none := by
  unfold closeShift at hok
  cases h : findOne shifts workerId todayKey with
  | none => simp [h] at hok
  | some s =>
    cases hc : s.closedAt with
    | none => exact ⟨s, rfl, hc⟩
    | some t => simp [h, hc] at hok

/-- After `save`, `findOne` loads the document written. -/
theorem findOne_save (w : WorkerId) (d : DateKey) (s s1 : Shift) (shifts : List Shift)
    (h : findOne shifts w d = some s) (hw : s1.worker = s.worker) (hd : s1.date = s.date) :
    findOne (save w d s1 shifts) w d = some s1 := by
  obtain ⟨pre, post, hsplit, hpre⟩ := findOne_split h
  have hs : matchesKey w d s = true := List.find?_some h
  subst hsplit
  rw [save_split w d s1 s pre post hpre hs]
  apply findOne_split_eq w d s1 pre post hpre
  have := findOne_matches h
  simp [matchesKey, hw, hd, this.1, this.2]

/-! ## The settlement stored by `closeShift` -/

/-- C2: a successful `closeShift` stores as `totalCount` the number of
reservations (not of line items) of the acting worker with status accepted or
done and a datetime from 00:00:00.000 to 23:59:59.999 of the day, both ends
included; a reservation that is pending or rejected, belongs to another worker
or lies outside that interval can be taken out of the collection without
changing what `closeShift` answers and stores. -/
theorem closeShift_totalCount_eq_countP (now : Time) (todayKey : DateKey) (workerId : WorkerId)
    (reservations : List Reservation) (services : List Service) (shifts : List Shift)
    (hok : (closeShift now todayKey workerId reservations services shifts).1.status = 200) :
    (∃ stored : Shift,
      findOne (closeShift now todayKey workerId reservations services shifts).2 workerId todayKey
        = some stored ∧
      (closeShift now todayKey workerId reservations services shifts).1.body = Body.shift stored ∧
      stored.totalCount = reservations.countP (fun r => decide (r.worker = some workerId ∧
        (r.status = Status.accepted ∨ r.status = Status.done) ∧
        todayKey * 86400000 ≤ r.datetime ∧ r.datetime ≤ todayKey * 86400000 + 86399999))) ∧
    (∀ (pre post : List Reservation) (r : Reservation), reservations = pre ++ r :: post →
      (r.status = Status.pending ∨ r.status = Status.rejected ∨ r.worker ≠ some workerId ∨
        r.datetime < todayKey * 86400000 ∨ todayKey * 86400000 + 86399999 < r.datetime) →
      closeShift now todayKey workerId (pre ++ post) services shifts
        = closeShift now todayKey workerId reservations services shifts) := by
  obtain ⟨s, hs, hc⟩ := closeShift_ok_open now todayKey workerId reservations services shifts hok
  constructor
  · rw [closeShift_of_open now todayKey workerId reservations services shifts s hs hc]
    refine ⟨_, findOne_save workerId todayKey s _ shifts hs rfl rfl, rfl, ?_⟩
    have hq : (fun r : Reservation => decide (r.worker = some workerId ∧
        (r.status = Status.accepted ∨ r.status = Status.done) ∧
        todayKey * 86400000 ≤ r.datetime ∧ r.datetime ≤ todayKey * 86400000 + 86399999))
        = settledQuery workerId todayKey := by
      funext r
      simp [settledQuery, inDay, dayStart, dayEnd, Bool.and_assoc]
    rw [hq, List.countP_eq_length_filter]
  · intro pre post r hsplit hr
    have hnot : settledQuery workerId todayKey r = false := by
      simp only [settledQuery, inDay, dayStart, dayEnd]
      rcases hr with h | h | h | h | h
      · simp [h]
      · simp [h]
      · simp [h]
      · have : ¬ todayKey * 86400000 ≤ r.datetime := not_le.2 h
        simp [this]
      · have : ¬ r.datetime ≤ todayKey * 86400000 + 86399999 := not_le.2 h
        simp [this]
    have hf : (pre ++ post).filter (settledQuery workerId todayKey)
        = reservations.filter (settledQuery workerId todayKey) := by
      rw [hsplit]
      simp [List.filter_append, List.filter_cons, hnot]
    rw [closeShift_of_open now todayKey workerId reservations services shifts s hs hc,
      closeShift_of_open now todayKey workerId (pre ++ post) services shifts s hs hc, hf]

/-- C2, on the scenario: with the pending R3 added for the same worker and day
the totals remain 2 and 55. -/
theorem closeShift_totalCount_eq_countP_witness :
    (closeShift (dayEnd exDay) exDay exWorker [exR1, exR2, exR3] exCatalog [exOpenShift]).1
        = ⟨200, Body.shift { exOpenShift with
            closedAt := some (dayEnd exDay), totalCount := 2, totalRevenue := 55 }⟩ ∧
    closeShift (dayEnd exDay) exDay exWorker ([exR1, exR2] ++ []) exCatalog [exOpenShift]
        = closeShift (dayEnd exDay) exDay exWorker [exR1, exR2, exR3] exCatalog [exOpenShift] :=
  ⟨by norm_num +decide [closeShift, findOne, matchesKey, exOpenShift, exR1, exR2, exR3, exCatalog,
        settledQuery, inDay, dayStart, dayEnd, exDay, exWorker, revenueLoop, lineAmount,
        priceMap, orDefault, List.filter],
   (closeShift_totalCount_eq_countP (dayEnd exDay) exDay exWorker [exR1, exR2, exR3] exCatalog
      [exOpenShift]
      (by norm_num +decide [closeShift, findOne, matchesKey, exOpenShift, exWorker, exDay])).2
      [exR1, exR2] [] exR3 rfl (Or.inl rfl)⟩

theorem settledQuery_withItems (w : WorkerId) (d : DateKey) (r : Reservation)
    (items : List ServiceItem) :
    settledQuery w d (withItems r items) = settledQuery w d r := rfl

/-- The loop total of a collection in which a settled reservation holds one more
line item is the total without that line item plus the amount of the line item. -/
theorem revenueLoop_insert_item (pm : String → Option ℚ) (w : WorkerId) (d : DateKey)
    (pre post : List Reservation) (r : Reservation) (xs ys : List ServiceItem) (s : ServiceItem)
    (hr : settledQuery w d r = true) :
    revenueLoop pm ((pre ++ withItems r (xs ++ s :: ys) :: post).filter (settledQuery w d))
      = revenueLoop pm ((pre ++ withItems r (xs ++ ys) :: post).filter (settledQuery w d))
        + lineAmount pm s := by
  have h1 : ∀ items : List ServiceItem,
      (pre ++ withItems r items :: post).filter (settledQuery w d)
        = pre.filter (settledQuery w d) ++ withItems r items :: post.filter (settledQuery w d) := by
    intro items
    rw [List.filter_append, List.filter_cons_of_pos (by simp [settledQuery_withItems, hr])]
  have h2 : reservationAmount pm (withItems r (xs ++ s :: ys))
      = reservationAmount pm (withItems r (xs ++ ys)) + lineAmount pm s := by
    simp only [reservationAmount, withItems, List.map_append, List.map_cons, List.sum_append,
      List.sum_cons]
    ring
  rw [revenueLoop_eq_sum, revenueLoop_eq_sum, h1, h1]
  simp only [List.map_append, List.map_cons, List.sum_append, List.sum_cons, h2]
  ring

/-- C3 as stated fails: a line item with the negative quantity -2 of a service
priced 20 is settled at 20 * (-2) = -40, not at 20 * 1. -/
theorem closeShift_negative_quantity_counterexample :
    (closeShift (dayEnd exDay) exDay exWorker
        [withItems exR1 [{ name := "Wash", quantity := some (-2) }]] exCatalog [exOpenShift]).1
      = ⟨200, Body.shift { exOpenShift with
          closedAt := some (dayEnd exDay), totalCount := 1, totalRevenue := -40 }⟩ ∧
    (closeShift (dayEnd exDay) exDay exWorker
        [withItems exR1 []] exCatalog [exOpenShift]).1
      = ⟨200, Body.shift { exOpenShift with
          closedAt := some (dayEnd exDay), totalCount := 1, totalRevenue := 0 }⟩ ∧
    orDefault (priceMap exCatalog "Wash") 0 = 20 ∧
    (-40 : ℚ) ≠ 0 + 20 * 1 := by
  refine ⟨?_, ?_, ?_, ?_⟩
  · norm_num +decide [closeShift, findOne, matchesKey, exOpenShift, exR1, exCatalog, withItems,
      settledQuery, inDay, dayStart, dayEnd, exDay, exWorker, revenueLoop, lineAmount,
      priceMap, orDefault, List.filter]
  · norm_num +decide [closeShift, findOne, matchesKey, exOpenShift, exR1, exCatalog, withItems,
      settledQuery, inDay, dayStart, dayEnd, exDay, exWorker, revenueLoop, lineAmount,
      priceMap, orDefault, List.filter]
  · norm_num +decide [exCatalog, priceMap, orDefault]
  · norm_num

/-- C3, amended: for a line item of a settled reservation whose quantity is unset
or zero, `closeShift` on an open session uses quantity 1: its `totalRevenue`
is the one computed without the line item plus the price of the service name
(0 when the catalog lacks it) times 1. -/
theorem closeShift_quantity_default (now : Time) (todayKey : DateKey) (workerId : WorkerId)
    (pre post : List Reservation) (r : Reservation) (xs ys : List ServiceItem) (s : ServiceItem)
    (services : List Service) (shifts : List Shift) (shift : Shift)
    (hq : s.quantity = none ∨ s.quantity = some 0)
    (hr : settledQuery workerId todayKey r = true)
    (hopen : findOne shifts workerId todayKey = some shift) (hc : shift.closedAt = none) :
    ∃ a b : Shift,
      (closeShift now todayKey workerId (pre ++ withItems r (xs ++ s :: ys) :: post)
        services shifts).1 = ⟨200, Body.shift a⟩ ∧
      (closeShift now todayKey workerId (pre ++ withItems r (xs ++ ys) :: post)
        services shifts).1 = ⟨200, Body.shift b⟩ ∧
      a.totalRevenue = b.totalRevenue + orDefault (priceMap services s.name) 0 * 1 := by
  rw [closeShift_of_open now todayKey workerId _ services shifts shift hopen hc,
    closeShift_of_open now todayKey workerId _ services shifts shift hopen hc]
  refine ⟨_, _, rfl, rfl, ?_⟩
  show revenueLoop _ _ = revenueLoop _ _ + _
  rw [revenueLoop_insert_item (priceMap services) workerId todayKey pre post r xs ys s hr]
  congr 1
  rcases hq with hq | hq <;> simp [lineAmount, orDefault, hq]

/-- C3, amended, on the scenario: a Wash line item without quantity and one with
quantity 0 each add 20 to the settlement of R1. -/
theorem closeShift_quantity_default_witness :
    settledQuery exWorker exDay exR1 = true ∧
    findOne [exOpenShift] exWorker exDay = some exOpenShift ∧
    ∃ a b : Shift,
      (closeShift (dayEnd exDay) exDay exWorker
        ([] ++ withItems exR1 ([] ++ { name := "Wash", quantity := some 0 } :: []) :: [exR2])
        exCatalog [exOpenShift]).1 = ⟨200, Body.shift a⟩ ∧
      (closeShift (dayEnd exDay) exDay exWorker ([] ++ withItems exR1 ([] ++ []) :: [exR2])
        exCatalog [exOpenShift]).1 = ⟨200, Body.shift b⟩ ∧
      a.totalRevenue = b.totalRevenue
        + orDefault (priceMap exCatalog (ServiceItem.mk "Wash" (some 0)).name) 0 * 1 :=
  ⟨by norm_num +decide [settledQuery, inDay, dayStart, dayEnd, exR1, exDay, exWorker],
   by simp +decide [findOne, matchesKey, exOpenShift],
   closeShift_quantity_default (dayEnd exDay) exDay exWorker [] [exR2] exR1 [] []
    { name := "Wash", quantity := some 0 } exCatalog [exOpenShift] exOpenShift (Or.inr rfl)
    (by norm_num +decide [settledQuery, inDay, dayStart, dayEnd, exR1, exDay, exWorker])
    (by simp +decide [findOne, matchesKey, exOpenShift]) rfl⟩

/-! ## The session lifecycle -/

/-- What `openShift` answers and stores when there is no session of the day. -/
theorem openShift_of_none (now : Time) (todayKey : DateKey) (workerId : WorkerId)
    (shifts : List Shift) (h : findOne shifts workerId todayKey = none) :
    openShift now todayKey workerId shifts =
      (⟨201, Body.shift ⟨workerId, todayKey, now, none, 0, 0⟩⟩,
       shifts ++ [⟨workerId, todayKey, now, none, 0, 0⟩]) := by
  simp [openShift, h, create]

/-- What `openShift` answers and stores when the session of the day is closed. -/
theorem openShift_of_closed (now : Time) (todayKey : DateKey) (workerId : WorkerId)
    (shifts : List Shift) (s : Shift) (t : Time) (h : findOne shifts workerId todayKey = some s)
    (hc : s.closedAt = some t) :
    openShift now todayKey workerId shifts =
      (⟨201, Body.shift ⟨s.worker, s.date, now, none, 0, 0⟩⟩,
       save workerId todayKey ⟨s.worker, s.date, now, none, 0, 0⟩ shifts) := by
  simp [openShift, h, hc]

/-- What `openShift` answers and stores when the session of the day is open. -/
theorem openShift_of_open (now : Time) (todayKey : DateKey) (workerId : WorkerId)
    (shifts : List Shift) (s : Shift) (h : findOne shifts workerId todayKey = some s)
    (hc : s.closedAt = none) :
    openShift now todayKey workerId shifts =
      (⟨400, Body.message "Une journée est déjà ouverte."⟩, shifts) := by
  simp [openShift, h, hc]

/-- After any call of `openShift` the session of the day exists and is open. -/
theorem openShift_leaves_open (now : Time) (todayKey : DateKey) (workerId : WorkerId)
    (shifts : List Shift) :
    ∃ s, findOne (openShift now todayKey workerId shifts).2 workerId todayKey = some s
      ∧ s.closedAt = none := by
  cases h : findOne shifts workerId todayKey with
  | none =>
    rw [openShift_of_none now todayKey workerId shifts h]
    refine ⟨⟨workerId, todayKey, now, none, 0, 0⟩, ?_, rfl⟩
    have hall : ∀ x ∈ shifts, matchesKey workerId todayKey x = false := by
      intro x hx
      have := (List.find?_eq_none.1 h) x hx
      simpa using this
    exact findOne_split_eq workerId todayKey _ shifts [] hall (by simp [matchesKey])
  | some s =>
    cases hc : s.closedAt with
    | none =>
      rw [openShift_of_open now todayKey workerId shifts s h hc]
      exact ⟨s, h, hc⟩
    | some t =>
      rw [openShift_of_closed now todayKey workerId shifts s t h hc]
      exact ⟨_, findOne_save workerId todayKey s _ shifts h rfl rfl, rfl⟩

/-- C5: when the session record of the worker and day (the one `findOne` loads;
with one record per key, any record of the key) has `closedAt` absent,
`openShift` answers 400 and leaves the collection as it is, hence the record and
its `openedAt`; and of two calls of `openShift` for the same worker and day made
one after the other, from any collection, the second answers 400 and leaves the
collection as the first call left it. -/
theorem openShift_already_open (now now2 : Time) (todayKey : DateKey) (workerId : WorkerId)
    (shifts : List Shift) :
    (∀ s, findOne shifts workerId todayKey = some s → s.closedAt = none →
      openShift now todayKey workerId shifts
          = (⟨400, Body.message "Une journée est déjà ouverte."⟩, shifts) ∧
      findOne (openShift now todayKey workerId shifts).2 workerId todayKey = some s) ∧
    (OnePerKey shifts → ∀ s ∈ shifts, s.worker = workerId → s.date = todayKey →
      s.closedAt = none →
      openShift now todayKey workerId shifts
          = (⟨400, Body.message "Une journée est déjà ouverte."⟩, shifts)) ∧
    openShift now2 todayKey workerId (openShift now todayKey workerId shifts).2
      = (⟨400, Body.message "Une journée est déjà ouverte."⟩,
         (openShift now todayKey workerId shifts).2) := by
  refine ⟨?_, ?_, ?_⟩
  · intro s h hc
    rw [openShift_of_open now todayKey workerId shifts s h hc]
    exact ⟨rfl, h⟩
  · intro hone s hs hw hd hc
    have hf := findOne_of_mem shifts hone s workerId todayKey hs (by simp [matchesKey, hw, hd])
    exact openShift_of_open now todayKey workerId shifts s hf hc
  · obtain ⟨s, hs, hc⟩ := openShift_leaves_open now todayKey workerId shifts
    exact openShift_of_open now2 todayKey workerId _ s hs hc

/-- C5, on the scenario: the session opened at `T0` is open, a further `openShift`
answers 400 and the record keeps its `openedAt`. -/
theorem openShift_already_open_witness :
    findOne [exOpenShift] exWorker exDay = some exOpenShift ∧ exOpenShift.closedAt = none ∧
    openShift (dayEnd exDay) exDay exWorker [exOpenShift]
      = (⟨400, Body.message "Une journée est déjà ouverte."⟩, [exOpenShift]) ∧
    findOne (openShift (dayEnd exDay) exDay exWorker [exOpenShift]).2 exWorker exDay
      = some exOpenShift :=
  ⟨by simp +decide [findOne, matchesKey, exOpenShift], rfl,
   (openShift_already_open (dayEnd exDay) (dayEnd exDay) exDay exWorker [exOpenShift]).1
    exOpenShift (by simp +decide [findOne, matchesKey, exOpenShift]) rfl⟩

/-- C6: `closeShift` answers 400 exactly when there is no session record of the
worker and day or the record has `closedAt` set, and then it leaves the
collection as it is: no record is created and a closed session keeps its
`closedAt`, `totalCount` and `totalRevenue`. -/
theorem closeShift_no_open_session (now : Time) (todayKey : DateKey) (workerId : WorkerId)
    (reservations : List Reservation) (services : List Service) (shifts : List Shift) :
    ((closeShift now todayKey workerId reservations services shifts).1.status = 400 ↔
      (findOne shifts workerId todayKey = none ∨
        ∃ s t, findOne shifts workerId todayKey = some s ∧ s.closedAt = some t)) ∧
    ((closeShift now todayKey workerId reservations services shifts).1.status = 400 →
      closeShift now todayKey workerId reservations services shifts
        = (⟨400, Body.message "Aucune journée ouverte."⟩, shifts)) := by
  unfold closeShift
  cases h : findOne shifts workerId todayKey with
  | none => simp
  | some s =>
    cases hc : s.closedAt with
    | none => simp [hc]
    | some t => simp [hc]

/-- C6, on the scenario: `closeShift` on the closed session and on the empty
collection answers 400 and changes nothing. -/
theorem closeShift_no_open_session_witness :
    closeShift (dayEnd exDay) exDay exWorker [exR1, exR2] exCatalog [exClosedShift]
      = (⟨400, Body.message "Aucune journée ouverte."⟩, [exClosedShift]) ∧
    closeShift (dayEnd exDay) exDay exWorker [exR1, exR2] exCatalog []
      = (⟨400, Body.message "Aucune journée ouverte."⟩, []) :=
  ⟨(closeShift_no_open_session (dayEnd exDay) exDay exWorker [exR1, exR2] exCatalog
      [exClosedShift]).2
      (by simp +decide [closeShift, findOne, matchesKey, exClosedShift, exOpenShift]),
   (closeShift_no_open_session (dayEnd exDay) exDay exWorker [exR1, exR2] exCatalog []).2
      (by simp +decide [closeShift, findOne])⟩

/-- C7: when the session of the worker and day is closed, whatever its totals,
`openShift` answers 201 and writes the same record back in place (the collection
keeps its other documents and its length, so no second record is created):
afterwards the session has `closedAt` absent, `openedAt` the time of the call,
`totalCount` 0 and `totalRevenue` 0. -/
theorem openShift_reopen (now : Time) (todayKey : DateKey) (workerId : WorkerId)
    (shifts : List Shift) (s : Shift) (t : Time)
    (h : findOne shifts workerId todayKey = some s) (hc : s.closedAt = some t) :
    (openShift now todayKey workerId shifts).1
      = ⟨201, Body.shift ⟨workerId, todayKey, now, none, 0, 0⟩⟩ ∧
    findOne (openShift now todayKey workerId shifts).2 workerId todayKey
      = some ⟨workerId, todayKey, now, none, 0, 0⟩ ∧
    (∃ pre post, shifts = pre ++ s :: post ∧
      (openShift now todayKey workerId shifts).2
        = pre ++ ⟨workerId, todayKey, now, none, 0, 0⟩ :: post) ∧
    (openShift now todayKey workerId shifts).2.length = shifts.length ∧
    (∀ w d, (openShift now todayKey workerId shifts).2.countP (matchesKey w d)
      = shifts.countP (matchesKey w d)) := by
  obtain ⟨hw, hd⟩ := findOne_matches h
  rw [openShift_of_closed now todayKey workerId shifts s t h hc, hw, hd]
  obtain ⟨pre, post, hsplit, hpre⟩ := findOne_split h
  have hs : matchesKey workerId todayKey s = true := List.find?_some h
  have hsave := save_split workerId todayKey ⟨workerId, todayKey, now, none, 0, 0⟩ s pre post
    hpre hs
  refine ⟨rfl, findOne_save workerId todayKey s _ shifts h hw.symm hd.symm,
    ⟨pre, post, hsplit, by rw [hsplit, hsave]⟩, ?_, ?_⟩
  · rw [hsplit, hsave]
    simp
  · intro w d
    exact countP_save workerId todayKey s _ shifts h hw.symm hd.symm w d

/-- C7, on the scenario: reopening the session closed with the totals 2 and 55
gives one record, open, with the totals 0 and 0. -/
theorem openShift_reopen_witness :
    findOne [exClosedShift] exWorker exDay = some exClosedShift ∧
    exClosedShift.closedAt = some (dayEnd exDay) ∧
    openShift (dayEnd exDay + 1000) exDay exWorker [exClosedShift]
      = (⟨201, Body.shift ⟨exWorker, exDay, dayEnd exDay + 1000, none, 0, 0⟩⟩,
         [⟨exWorker, exDay, dayEnd exDay + 1000, none, 0, 0⟩]) ∧
    (openShift (dayEnd exDay + 1000) exDay exWorker [exClosedShift]).2.length
      = [exClosedShift].length :=
  ⟨by simp +decide [findOne, matchesKey, exClosedShift, exOpenShift], rfl,
   by simp +decide [openShift, findOne, matchesKey, exClosedShift, exOpenShift, save],
   (openShift_reopen (dayEnd exDay + 1000) exDay exWorker [exClosedShift] exClosedShift
      (dayEnd exDay) (by simp +decide [findOne, matchesKey, exClosedShift, exOpenShift])
      rfl).2.2.2.1⟩

/-! ## Sequences of calls -/

theorem openCount_le_sessionCount (shifts : List Shift) (w : WorkerId) (d : DateKey) :
    openCount shifts w d ≤ sessionCount shifts w d := by
  unfold openCount sessionCount
  apply List.countP_mono_left
  intro s _ hs
  simp only [Bool.and_eq_true] at hs
  exact hs.1

theorem onePerKey_openShift (now : Time) (todayKey : DateKey) (workerId : WorkerId)
    (shifts : List Shift) (h : OnePerKey shifts) :
    OnePerKey (openShift now todayKey workerId shifts).2 := by
  intro w d
  cases hf : findOne shifts workerId todayKey with
  | none =>
    rw [openShift_of_none now todayKey workerId shifts hf]
    have h0 := (findOne_eq_none_iff shifts workerId todayKey).1 hf
    unfold sessionCount
    rw [List.countP_append]
    by_cases hk : w = workerId ∧ d = todayKey
    · obtain ⟨rfl, rfl⟩ := hk
      rw [h0]
      simp [List.countP_cons]
      split <;> omega
    · have hm : matchesKey w d ⟨workerId, todayKey, now, none, 0, 0⟩ = false := by
        simp only [matchesKey, Bool.and_eq_false_iff, decide_eq_false_iff_not]
        by_contra hcon
        push_neg at hcon
        exact hk ⟨hcon.1.symm, hcon.2.symm⟩
      have := h w d
      unfold sessionCount at this
      simp [List.countP_cons, hm]
      exact this
  | some s =>
    cases hc : s.closedAt with
    | none =>
      rw [openShift_of_open now todayKey workerId shifts s hf hc]
      exact h w d
    | some t =>
      rw [openShift_of_closed now todayKey workerId shifts s t hf hc]
      exact le_of_eq_of_le
        (countP_save workerId todayKey s ⟨s.worker, s.date, now, none, 0, 0⟩ shifts hf rfl rfl w d)
        (h w d)

theorem onePerKey_closeShift (now : Time) (todayKey : DateKey) (workerId : WorkerId)
    (reservations : List Reservation) (services : List Service)
    (shifts : List Shift) (h : OnePerKey shifts) :
    OnePerKey (closeShift now todayKey workerId reservations services shifts).2 := by
  intro w d
  cases hf : findOne shifts workerId todayKey with
  | none =>
    have : closeShift now todayKey workerId reservations services shifts
        = (⟨400, Body.message "Aucune journée ouverte."⟩, shifts) := by
      simp [closeShift, hf]
    rw [this]
    exact h w d
  | some s =>
    cases hc : s.closedAt with
    | none =>
      rw [closeShift_of_open now todayKey workerId reservations services shifts s hf hc]
      exact le_of_eq_of_le
        (countP_save workerId todayKey s
          { s with
            closedAt := some now,
            totalCount := (reservations.filter (settledQuery workerId todayKey)).length,
            totalRevenue := revenueLoop (priceMap services)
              (reservations.filter (settledQuery workerId todayKey)) } shifts hf rfl rfl w d)
        (h w d)
    | some t =>
      have : closeShift now todayKey workerId reservations services shifts
          = (⟨400, Body.message "Aucune journée ouverte."⟩, shifts) := by
        simp [closeShift, hf, hc]
      rw [this]
      exact h w d

theorem onePerKey_serve (c : Call) (shifts : List Shift) (h : OnePerKey shifts) :
    OnePerKey (serve c shifts).2 := by
  cases c with
  | openShift now todayKey workerId => exact onePerKey_openShift now todayKey workerId shifts h
  | closeShift now todayKey workerId reservations services =>
    exact onePerKey_closeShift now todayKey workerId reservations services shifts h
  | getSummary todayKey workerId reservations => exact h

theorem onePerKey_serveAll (calls : List Call) (shifts : List Shift) (h : OnePerKey shifts) :
    OnePerKey (serveAll calls shifts) := by
  induction calls generalizing shifts with
  | nil => exact h
  | cons c rest ih => exact ih _ (onePerKey_serve c shifts h)

/-- C8: in every state reached from the empty collection by `openShift`,
`closeShift` and `getSummary` calls served one after another, for any workers,
days, clocks, reservations and catalogs, there is at most one session record
per worker and day, hence at most one in the Open state. -/
theorem serveAll_one_session_per_key (calls : List Call) (w : WorkerId) (d : DateKey) :
    sessionCount (serveAll calls []) w d ≤ 1 ∧ openCount (serveAll calls []) w d ≤ 1 := by
  have h : OnePerKey (serveAll calls []) :=
    onePerKey_serveAll calls [] (fun _ _ => by simp [sessionCount])
  exact ⟨h w d, le_trans (openCount_le_sessionCount _ w d) (h w d)⟩

/-! ## Order independence of the settlement -/

theorem reservationAmount_sameUpToItemOrder (pm : String → Option ℚ) {r r2 : Reservation}
    (h : SameUpToItemOrder r r2) : reservationAmount pm r = reservationAmount pm r2 :=
  (h.2.2.2.map (lineAmount pm)).sum_eq

theorem settledQuery_sameUpToItemOrder (w : WorkerId) (d : DateKey) {r r2 : Reservation}
    (h : SameUpToItemOrder r r2) : settledQuery w d r = settledQuery w d r2 := by
  obtain ⟨hw, hd, hs, _⟩ := h
  simp [settledQuery, inDay, hw, hd, hs]

theorem settlement_perm (pm : String → Option ℚ) (w : WorkerId) (d : DateKey)
    {l1 l2 : List Reservation} (h : l1.Perm l2) :
    (l1.filter (settledQuery w d)).length = (l2.filter (settledQuery w d)).length ∧
    revenueLoop pm (l1.filter (settledQuery w d)) = revenueLoop pm (l2.filter (settledQuery w d)) := by
  have hf := h.filter (settledQuery w d)
  refine ⟨hf.length_eq, ?_⟩
  rw [revenueLoop_eq_sum, revenueLoop_eq_sum]
  exact (hf.map (reservationAmount pm)).sum_eq

theorem settlement_items_perm (pm : String → Option ℚ) (w : WorkerId) (d : DateKey)
    {l1 l2 : List Reservation} (h : List.Forall₂ SameUpToItemOrder l1 l2) :
    (l1.filter (settledQuery w d)).length = (l2.filter (settledQuery w d)).length ∧
    revenueLoop pm (l1.filter (settledQuery w d)) = revenueLoop pm (l2.filter (settledQuery w d)) := by
  simp only [revenueLoop_eq_sum]
  induction h with
  | nil => simp
  | @cons a b _ _ hr _ ih =>
    have hq := settledQuery_sameUpToItemOrder w d hr
    have ha := reservationAmount_sameUpToItemOrder pm hr
    cases hb : settledQuery w d b with
    | true =>
      rw [hb] at hq
      rw [List.filter_cons_of_pos hq, List.filter_cons_of_pos hb]
      simp [ih.1, ih.2, ha]
    | false =>
      rw [hb] at hq
      rw [List.filter_cons_of_neg (by simp [hq]), List.filter_cons_of_neg (by simp [hb])]
      exact ih

/-- C9: the settlement does not depend on the order of iteration: for every
catalog, two reservation collections of which one is a permutation of the
other, also with the line items inside each reservation permuted, make
`closeShift` answer and store the same, so the same `totalCount` and
`totalRevenue`. -/
theorem closeShift_order_independent (now : Time) (todayKey : DateKey) (workerId : WorkerId)
    (l1 l l2 : List Reservation) (services : List Service) (shifts : List Shift)
    (hperm : l1.Perm l) (hitems : List.Forall₂ SameUpToItemOrder l l2) :
    closeShift now todayKey workerId l1 services shifts
      = closeShift now todayKey workerId l2 services shifts := by
  have h1 := settlement_perm (priceMap services) workerId todayKey hperm
  have h2 := settlement_items_perm (priceMap services) workerId todayKey hitems
  unfold closeShift
  simp only [h1.1, h1.2, h2.1, h2.2]

/-- C9, on the scenario: R1 then R4 against R4 with its line items swapped then R1;
both settle to count 2 and revenue 90. -/
theorem closeShift_order_independent_witness :
    (closeShift (dayEnd exDay) exDay exWorker [exR1, exR4] exCatalog [exOpenShift]).1
      = ⟨200, Body.shift { exOpenShift with
          closedAt := some (dayEnd exDay), totalCount := 2, totalRevenue := 90 }⟩ ∧
    closeShift (dayEnd exDay) exDay exWorker [exR1, exR4] exCatalog [exOpenShift]
      = closeShift (dayEnd exDay) exDay exWorker [exR4swapped, exR1] exCatalog [exOpenShift] :=
  ⟨by norm_num +decide [closeShift, findOne, matchesKey, exOpenShift, exR1, exR4, exCatalog,
        settledQuery, inDay, dayStart, dayEnd, exDay, exWorker, revenueLoop, lineAmount,
        priceMap, orDefault, List.filter],
   closeShift_order_independent (dayEnd exDay) exDay exWorker [exR1, exR4] [exR4, exR1]
    [exR4swapped, exR1] exCatalog [exOpenShift] (List.Perm.swap exR4 exR1 [])
    (List.Forall₂.cons ⟨rfl, rfl, rfl, List.Perm.swap _ _ []⟩
      (List.Forall₂.cons ⟨rfl, rfl, rfl, List.Perm.refl _⟩ List.Forall₂.nil))⟩

/-! ## The summary -/

/-- C10: `getSummary` reads only: in every state it answers 200 with the session
record stored for the worker and day as it is (absent when there is none) and
the worker's reservations of the day, and leaves the collection as it is; so a
`getSummary` served right after a successful `closeShift` reports the very
record, hence the `totalCount` and `totalRevenue`, that `closeShift` answered. -/
theorem getSummary_pure_read (now : Time) (todayKey : DateKey) (workerId : WorkerId)
    (reservations reservations2 : List Reservation) (services : List Service)
    (shifts : List Shift) :
    getSummary todayKey workerId reservations shifts
      = (⟨200, Body.summary (findOne shifts workerId todayKey)
          (reservations.filter (fun r => decide (r.worker = some workerId ∧
            dayStart todayKey ≤ r.datetime ∧ r.datetime ≤ dayEnd todayKey)))⟩, shifts) ∧
    ((closeShift now todayKey workerId reservations services shifts).1.status = 200 →
      ∃ stored : Shift,
        (closeShift now todayKey workerId reservations services shifts).1
          = ⟨200, Body.shift stored⟩ ∧
        getSummary todayKey workerId reservations2
            (closeShift now todayKey workerId reservations services shifts).2
          = (⟨200, Body.summary (some stored)
              (reservations2.filter (dayQuery workerId todayKey))⟩,
             (closeShift now todayKey workerId reservations services shifts).2)) := by
  constructor
  · have hq : (fun r : Reservation => decide (r.worker = some workerId ∧
        dayStart todayKey ≤ r.datetime ∧ r.datetime ≤ dayEnd todayKey))
        = dayQuery workerId todayKey := by
      funext r
      simp [dayQuery, inDay]
    rw [hq]
    rfl
  · intro hok
    obtain ⟨s, hs, hc⟩ := closeShift_ok_open now todayKey workerId reservations services shifts hok
    rw [closeShift_of_open now todayKey workerId reservations services shifts s hs hc]
    refine ⟨_, rfl, ?_⟩
    have hfs := findOne_save workerId todayKey s
      { s with
        closedAt := some now,
        totalCount := (reservations.filter (settledQuery workerId todayKey)).length,
        totalRevenue := revenueLoop (priceMap services)
          (reservations.filter (settledQuery workerId todayKey)) } shifts hs rfl rfl
    simp only [getSummary, hfs]

/-- C10, on the scenario: the summary read after the close of the session reports
the record with the totals 2 and 55, and writes nothing. -/
theorem getSummary_pure_read_witness :
    (closeShift (dayEnd exDay) exDay exWorker [exR1, exR2, exR3] exCatalog [exOpenShift]).1
      = ⟨200, Body.shift exClosedShift⟩ ∧
    ∃ stored : Shift,
      (closeShift (dayEnd exDay) exDay exWorker [exR1, exR2, exR3] exCatalog [exOpenShift]).1
        = ⟨200, Body.shift stored⟩ ∧
      getSummary exDay exWorker [exR1, exR2, exR3]
          (closeShift (dayEnd exDay) exDay exWorker [exR1, exR2, exR3] exCatalog [exOpenShift]).2
        = (⟨200, Body.summary (some stored)
            ([exR1, exR2, exR3].filter (dayQuery exWorker exDay))⟩,
           (closeShift (dayEnd exDay) exDay exWorker [exR1, exR2, exR3] exCatalog
            [exOpenShift]).2) :=
  ⟨by norm_num +decide [closeShift, findOne, matchesKey, exOpenShift, exClosedShift, exR1, exR2,
        exR3, exCatalog, settledQuery, inDay, dayStart, dayEnd, exDay, exWorker, revenueLoop,
        lineAmount, priceMap, orDefault, List.filter],
   (getSummary_pure_read (dayEnd exDay) exDay exWorker [exR1, exR2, exR3] [exR1, exR2, exR3]
      exCatalog [exOpenShift]).2
      (by norm_num +decide [closeShift, findOne, matchesKey, exOpenShift, exWorker, exDay])⟩

/-! ## Reservation status transitions -/

/-- The dashboard offers a button for a status exactly when the state machine
allows the transition to it. -/
theorem mem_offeredActions_iff (status target : Status) :
    target ∈ offeredActions status ↔ allowedTransition status target = true := by
  cases status <;> cases target <;> simp [offeredActions, allowedTransition]

/-- The allowed transitions are the three of the state machine. -/
theorem allowedTransition_iff (status target : Status) :
    allowedTransition status target = true ↔
      ((status = Status.pending ∧ target = Status.accepted) ∨
       (status = Status.pending ∧ target = Status.rejected) ∨
       (status = Status.accepted ∧ target = Status.done)) := by
  cases status <;> cases target <;> simp [allowedTransition]

/-- An allowed transition requested by the assigned worker succeeds and sets the
status. -/
theorem requestTransition_allowed (actor : WorkerId) (r : Reservation) (target : Status)
    (h : allowedTransition r.status target = true) (hw : r.worker = some actor) :
    (requestTransition actor r target).1 = TransitionOutcome.ok ∧
    (requestTransition actor r target).2.status = target ∧
    (requestTransition actor r target).2.worker = some actor := by
  cases target <;> simp [requestTransition, h, hw]

/-- C11: every requested status transition other than pending to accepted,
pending to rejected and accepted to done (so any transition out of rejected or
done, pending to done, and the self-loops) fails with `InvalidTransition`,
whoever requests it, and leaves the reservation, hence its status, as it is;
the dashboard offers no button for it. -/
theorem requestTransition_invalid (actor : WorkerId) (r : Reservation) (target : Status)
    (h1 : ¬ (r.status = Status.pending ∧ target = Status.accepted))
    (h2 : ¬ (r.status = Status.pending ∧ target = Status.rejected))
    (h3 : ¬ (r.status = Status.accepted ∧ target = Status.done)) :
    requestTransition actor r target
      = (TransitionOutcome.failed TransitionError.invalidTransition, r) ∧
    (requestTransition actor r target).2.status = r.status ∧
    target ∉ offeredActions r.status := by
  have hna : allowedTransition r.status target = false := by
    cases hs : allowedTransition r.status target with
    | false => rfl
    | true =>
      rcases (allowedTransition_iff r.status target).1 hs with h | h | h
      · exact absurd h h1
      · exact absurd h h2
      · exact absurd h h3
  have hres : requestTransition actor r target
      = (TransitionOutcome.failed TransitionError.invalidTransition, r) := by
    simp [requestTransition, hna]
  refine ⟨hres, by rw [hres], ?_⟩
  intro hmem
  rw [mem_offeredActions_iff, hna] at hmem
  exact Bool.false_ne_true hmem

/-- C11, on the scenario: done to accepted on R2, pending to done on R3 and the
self-loop accepted to accepted on R1 each fail with `InvalidTransition` and
leave the reservation as it is. -/
theorem requestTransition_invalid_witness :
    requestTransition exWorker exR2 Status.accepted
      = (TransitionOutcome.failed TransitionError.invalidTransition, exR2) ∧
    requestTransition exWorker exR3 Status.done
      = (TransitionOutcome.failed TransitionError.invalidTransition, exR3) ∧
    requestTransition exWorker exR1 Status.accepted
      = (TransitionOutcome.failed TransitionError.invalidTransition, exR1) :=
  ⟨(requestTransition_invalid exWorker exR2 Status.accepted
      (by simp [exR2]) (by simp [exR2]) (by simp [exR2])).1,
   (requestTransition_invalid exWorker exR3 Status.done
      (by simp [exR3]) (by simp [exR3]) (by simp [exR3])).1,
   (requestTransition_invalid exWorker exR1 Status.accepted
      (by simp [exR1]) (by simp [exR1]) (by simp [exR1])).1⟩

/-! ## The settlement in the numbers of JavaScript -/

theorem foldl_lineItems (services : List Service) (rs : List Reservation)
    (init : Option JSNumber) :
    rs.foldl (fun total r => r.services.foldl (accumulateJS services) total) init
      = (lineItems rs).foldl (accumulateJS services) init := by
  induction rs generalizing init with
  | nil => rfl
  | cons r rest ih => simp [lineItems, List.foldl_append, ih]

theorem revenueLoopJS_eq_foldl (services : List Service) (rs : List Reservation) :
    revenueLoopJS services rs
      = (lineItems rs).foldl (accumulateJS services) (some (JSNumber.finite 0)) :=
  foldl_lineItems services rs _

theorem lineItems_map_sum (f : ServiceItem → ℚ) (rs : List Reservation) :
    ((lineItems rs).map f).sum = (rs.map (fun r => (r.services.map f).sum)).sum := by
  induction rs with
  | nil => rfl
  | cons r rest ih => simp [lineItems, ih]

theorem foldl_accumulateJS_none (services : List Service) (items : List ServiceItem) :
    items.foldl (accumulateJS services) none = none := by
  induction items with
  | nil => rfl
  | cons s rest ih => simpa [accumulateJS] using ih

/-- Once the total is `NaN` it never is a number again. -/
theorem foldl_accumulateJS_nan (services : List Service) (items : List ServiceItem) (t : ℚ) :
    items.foldl (accumulateJS services) (some JSNumber.nan) ≠ some (JSNumber.finite t) := by
  induction items with
  | nil => simp
  | cons s rest ih =>
    rw [List.foldl_cons]
    cases h : lineAmountJS services s with
    | none =>
      have : accumulateJS services (some JSNumber.nan) s = none := by simp [accumulateJS, h]
      rw [this, foldl_accumulateJS_none]
      simp
    | some a =>
      have : accumulateJS services (some JSNumber.nan) s = some JSNumber.nan := by
        simp [accumulateJS, h, jsAdd]
      rw [this]
      exact ih

/-- The read of `__proto__` gives the inherited object, whatever the catalog. -/
theorem priceMapRead_proto (services : List Service) :
    priceMapRead services "__proto__" = some PropertyValue.object := by
  simp [priceMapRead, inheritedNames]

/-- The accumulation over line items that name catalog services with a positive
quantity, when every product and partial sum is a double, ends on the exact
sum of price times quantity. -/
theorem foldl_accumulateJS_exact (services : List Service) (price : String → ℚ)
    (hprice : ∀ e ∈ services, e.price = price e.name) (items : List ServiceItem) (total t : ℚ)
    (hitems : ∀ s ∈ items, (∃ e ∈ services, e.name = s.name) ∧
      ∃ q : ℚ, s.quantity = some q ∧ 0 < q)
    (hexact : ∀ v ∈ partialValues total (items.map (fun s => price s.name * s.quantity.getD 0)),
      roundDouble v = some v)
    (hrun : items.foldl (accumulateJS services) (some (JSNumber.finite total))
      = some (JSNumber.finite t)) :
    t = total + (items.map (fun s => price s.name * s.quantity.getD 0)).sum := by
  induction items generalizing total with
  | nil =>
    simp only [List.foldl_nil, Option.some.injEq, JSNumber.finite.injEq] at hrun
    simp [hrun]
  | cons s rest ih =>
    obtain ⟨hname, q, hq, hqpos⟩ := hitems s (by simp)
    have hq0 : q ≠ 0 := ne_of_gt hqpos
    rw [List.foldl_cons] at hrun
    by_cases hproto : s.name = "__proto__"
    · have hstep : accumulateJS services (some (JSNumber.finite total)) s = some JSNumber.nan := by
        simp [accumulateJS, lineAmountJS, hproto, priceMapRead_proto, priceOperand, jsMul, jsAdd]
      rw [hstep] at hrun
      exact absurd hrun (foldl_accumulateJS_nan services rest t)
    · have hpm := priceMap_present services s.name price hprice hname
      have hread : priceMapRead services s.name = some (PropertyValue.number (price s.name)) := by
        simp [priceMapRead, hproto, hpm]
      have hv1 : roundDouble (price s.name * q) = some (price s.name * q) := by
        apply hexact
        simp [partialValues, hq]
      have hv2 : roundDouble (total + price s.name * q) = some (total + price s.name * q) := by
        apply hexact
        simp [partialValues, hq]
      have hstep : accumulateJS services (some (JSNumber.finite total)) s
          = some (JSNumber.finite (total + price s.name * q)) := by
        simp [accumulateJS, lineAmountJS, hread, priceOperand, jsMul, jsAdd, orDefault, hq, hq0,
          hv1, hv2]
      rw [hstep] at hrun
      have hrest := ih (total + price s.name * q)
        (fun x hx => hitems x (by simp [hx]))
        (fun v hv => hexact v (by simp [partialValues, hq, hv]))
        hrun
      rw [hrest]
      simp [hq, add_assoc]

/-- What a call of `closeShiftJS` that answers 200 found, computed and wrote. -/
theorem closeShiftJS_ok (now : Time) (todayKey : DateKey) (workerId : WorkerId)
    (reservations : List Reservation) (services : List Service) (shifts : List Shift)
    (response : Response) (store : List Shift)
    (h : closeShiftJS now todayKey workerId reservations services shifts = some (response, store))
    (hok : response.status = 200) :
    ∃ (s : Shift) (t : ℚ), findOne shifts workerId todayKey = some s ∧ s.closedAt = none ∧
      revenueLoopJS services (reservations.filter (settledQuery workerId todayKey))
        = some (JSNumber.finite t) ∧
      response = ⟨200, Body.shift ⟨s.worker, s.date, s.openedAt, some now,
        (reservations.filter (settledQuery workerId todayKey)).length, t⟩⟩ ∧
      store = save workerId todayKey ⟨s.worker, s.date, s.openedAt, some now,
        (reservations.filter (settledQuery workerId todayKey)).length, t⟩ shifts := by
  unfold closeShiftJS at h
  cases hf : findOne shifts workerId todayKey with
  | none =>
    simp only [hf, Option.some.injEq, Prod.mk.injEq] at h
    rw [← h.1] at hok
    simp at hok
  | some s =>
    cases hc : s.closedAt with
    | some c =>
      simp only [hf, hc, Option.isSome_some, if_true, Option.some.injEq, Prod.mk.injEq] at h
      rw [← h.1] at hok
      simp at hok
    | none =>
      simp only [hf, hc, Option.isSome_none, Bool.false_eq_true, if_false] at h
      cases hr : revenueLoopJS services (reservations.filter (settledQuery workerId todayKey)) with
      | none => simp [hr] at h
      | some total =>
        cases total with
        | nan =>
          simp only [hr, Option.some.injEq, Prod.mk.injEq] at h
          rw [← h.1] at hok
          simp at hok
        | finite t =>
          simp only [hr, Option.some.injEq, Prod.mk.injEq] at h
          exact ⟨s, t, rfl, hc, rfl, h.1.symm, h.2.symm⟩

/-- The handler with the numbers of JavaScript answers and stores what the
handler in exact arithmetic does whenever its loop ends on the exact total,
that is, when nothing is rounded and no inherited property is read. -/
theorem closeShiftJS_eq_closeShift (now : Time) (todayKey : DateKey) (workerId : WorkerId)
    (reservations : List Reservation) (services : List Service) (shifts : List Shift)
    (h : revenueLoopJS services (reservations.filter (settledQuery workerId todayKey))
      = some (JSNumber.finite
          (revenueLoop (priceMap services)
            (reservations.filter (settledQuery workerId todayKey))))) :
    closeShiftJS now todayKey workerId reservations services shifts
      = some (closeShift now todayKey workerId reservations services shifts) := by
  unfold closeShiftJS closeShift
  cases hf : findOne shifts workerId todayKey with
  | none => rfl
  | some s =>
    cases hc : s.closedAt with
    | some c => simp [hc]
    | none => simp [hc, h]

/-- C1 as stated fails: with the prices 0.1 and 0.2 (as doubles) and one line item
of each, all in the catalog and with quantity 1, the close succeeds and stores
the double 0.30000000000000004, which is not the sum of price times quantity. -/
theorem closeShiftJS_rounding_counterexample :
    (∀ e ∈ exCentsCatalog, e.price = exCentsPrice e.name) ∧
    (∀ s ∈ exR5.services, (∃ e ∈ exCentsCatalog, e.name = s.name) ∧
      ∃ q : ℚ, s.quantity = some q ∧ 0 < q) ∧
    closeShiftJS (dayEnd exDay) exDay exWorker [exR5] exCentsCatalog [exOpenShift]
      = some (⟨200, Body.shift exCentsClosedShift⟩, [exCentsClosedShift]) ∧
    findOne [exCentsClosedShift] exWorker exDay = some exCentsClosedShift ∧
    exCentsClosedShift.totalRevenue = 1351079888211149 / 4503599627370496 ∧
    (([exR5].filter (fun r => decide (r.worker = some exWorker ∧
          (r.status = Status.accepted ∨ r.status = Status.done) ∧
          exDay * 86400000 ≤ r.datetime ∧ r.datetime ≤ exDay * 86400000 + 86399999))).map
      (fun r => (r.services.map (fun s => exCentsPrice s.name * s.quantity.getD 0)).sum)).sum
      = 10808639105689191 / 36028797018963968 ∧
    exCentsClosedShift.totalRevenue ≠
      (([exR5].filter (fun r => decide (r.worker = some exWorker ∧
          (r.status = Status.accepted ∨ r.status = Status.done) ∧
          exDay * 86400000 ≤ r.datetime ∧ r.datetime ≤ exDay * 86400000 + 86399999))).map
      (fun r => (r.services.map (fun s => exCentsPrice s.name * s.quantity.getD 0)).sum)).sum := by
  have hsum : (([exR5].filter (fun r => decide (r.worker = some exWorker ∧
          (r.status = Status.accepted ∨ r.status = Status.done) ∧
          exDay * 86400000 ≤ r.datetime ∧ r.datetime ≤ exDay * 86400000 + 86399999))).map
      (fun r => (r.services.map (fun s => exCentsPrice s.name * s.quantity.getD 0)).sum)).sum
      = 10808639105689191 / 36028797018963968 := by
    norm_num +decide [exR5, exWorker, exDay, dayStart, List.filter, exCentsPrice, exTenth,
      exFifth]
  refine ⟨by simp +decide [exCentsCatalog, exCentsPrice], ?_, by decide!, ?_, rfl, hsum, ?_⟩
  · intro s hs
    simp only [exR5, List.mem_cons, List.mem_singleton, List.not_mem_nil, or_false] at hs
    rcases hs with rfl | rfl
    · exact ⟨⟨⟨"Rinse", exTenth⟩, by simp [exCentsCatalog], rfl⟩, 1, rfl, by norm_num⟩
    · exact ⟨⟨⟨"Dry", exFifth⟩, by simp [exCentsCatalog], rfl⟩, 1, rfl, by norm_num⟩
  · simp +decide [findOne, matchesKey, exCentsClosedShift, exOpenShift]
  · rw [hsum]
    norm_num [exCentsClosedShift]

/-- C1, amended: when every line item of the settled reservations names a catalog
service and has a positive quantity, and the arithmetic of the settlement is
exact (every product of price and quantity and every partial sum of the
accumulation is a double), a successful `closeShift` stores (and answers) a
session whose `totalRevenue` is the sum, over the reservations of the worker
with status accepted or done and a datetime from 00:00:00.000 to 23:59:59.999
of the day, and over their line items, of the catalog price of the service name
times the quantity. -/
theorem closeShiftJS_totalRevenue_eq_sum (now : Time) (todayKey : DateKey) (workerId : WorkerId)
    (reservations : List Reservation) (services : List Service) (shifts : List Shift)
    (price : String → ℚ) (response : Response) (store : List Shift)
    (hprice : ∀ e ∈ services, e.price = price e.name)
    (hitems : ∀ r ∈ reservations,
      (r.worker = some workerId ∧ (r.status = Status.accepted ∨ r.status = Status.done) ∧
        todayKey * 86400000 ≤ r.datetime ∧ r.datetime ≤ todayKey * 86400000 + 86399999) →
      ∀ s ∈ r.services, (∃ e ∈ services, e.name = s.name) ∧ ∃ q : ℚ, s.quantity = some q ∧ 0 < q)
    (hexact : ∀ v ∈ partialValues 0
      ((lineItems (reservations.filter (fun r => decide (r.worker = some workerId ∧
          (r.status = Status.accepted ∨ r.status = Status.done) ∧
          todayKey * 86400000 ≤ r.datetime ∧ r.datetime ≤ todayKey * 86400000 + 86399999)))).map
        (fun s => price s.name * s.quantity.getD 0)),
      roundDouble v = some v)
    (hclose : closeShiftJS now todayKey workerId reservations services shifts
      = some (response, store))
    (hok : response.status = 200) :
    ∃ stored : Shift,
      findOne store workerId todayKey = some stored ∧
      response.body = Body.shift stored ∧
      stored.totalRevenue =
        ((reservations.filter (fun r => decide (r.worker = some workerId ∧
              (r.status = Status.accepted ∨ r.status = Status.done) ∧
              todayKey * 86400000 ≤ r.datetime ∧
              r.datetime ≤ todayKey * 86400000 + 86399999))).map
          (fun r => (r.services.map (fun s => price s.name * s.quantity.getD 0)).sum)).sum := by
  have hq : (fun r : Reservation => decide (r.worker = some workerId ∧
      (r.status = Status.accepted ∨ r.status = Status.done) ∧
      todayKey * 86400000 ≤ r.datetime ∧ r.datetime ≤ todayKey * 86400000 + 86399999))
      = settledQuery workerId todayKey := by
    funext r
    simp [settledQuery, inDay, dayStart, dayEnd, Bool.and_assoc]
  rw [hq] at hexact
  rw [hq]
  obtain ⟨s, t, hs, _, hrun, hresp, hstore⟩ :=
    closeShiftJS_ok now todayKey workerId reservations services shifts response store hclose hok
  refine ⟨⟨s.worker, s.date, s.openedAt, some now,
    (reservations.filter (settledQuery workerId todayKey)).length, t⟩, ?_, ?_, ?_⟩
  · rw [hstore]
    exact findOne_save workerId todayKey s
      ⟨s.worker, s.date, s.openedAt, some now,
        (reservations.filter (settledQuery workerId todayKey)).length, t⟩ shifts hs rfl rfl
  · rw [hresp]
  · show t = _
    rw [revenueLoopJS_eq_foldl] at hrun
    have hsum := foldl_accumulateJS_exact services price hprice
      (lineItems (reservations.filter (settledQuery workerId todayKey))) 0 t ?_ hexact hrun
    · rw [hsum, zero_add, lineItems_map_sum]
    · intro it hit
      have hmem : ∀ (rs : List Reservation), it ∈ lineItems rs → ∃ r ∈ rs, it ∈ r.services := by
        intro rs
        induction rs with
        | nil => simp [lineItems]
        | cons r rest ih =>
          intro h
          simp only [lineItems, List.mem_append] at h
          rcases h with h | h
          · exact ⟨r, by simp, h⟩
          · obtain ⟨r2, hr2, hin⟩ := ih h
            exact ⟨r2, by simp [hr2], hin⟩
      obtain ⟨r, hr, hin⟩ := hmem _ hit
      obtain ⟨hrmem, hrq⟩ := List.mem_filter.1 hr
      have hrq2 : r.worker = some workerId ∧
          (r.status = Status.accepted ∨ r.status = Status.done) ∧
          todayKey * 86400000 ≤ r.datetime ∧ r.datetime ≤ todayKey * 86400000 + 86399999 := by
        have := hrq
        rw [← hq] at this
        simpa using this
      exact hitems r hrmem hrq2 it hin

set_option maxRecDepth 100000 in
/-- C1, amended, on the scenario: R1 accepted with two Wash, R2 done with one Wax,
catalog Wash = 20 and Wax = 15; the products 40 and 15 and the partial sums 40
and 55 are doubles, and the stored session has totalCount 2 and totalRevenue
55. -/
theorem closeShiftJS_totalRevenue_eq_sum_witness :
    closeShiftJS (dayEnd exDay) exDay exWorker [exR1, exR2] exCatalog [exOpenShift]
      = some (⟨200, Body.shift exClosedShift⟩, [exClosedShift]) ∧
    exClosedShift.totalCount = 2 ∧ exClosedShift.totalRevenue = 55 ∧
    ∃ stored : Shift,
      findOne [exClosedShift] exWorker exDay = some stored ∧
      (Response.mk 200 (Body.shift exClosedShift)).body = Body.shift stored ∧
      stored.totalRevenue =
        (([exR1, exR2].filter (fun r => decide (r.worker = some exWorker ∧
              (r.status = Status.accepted ∨ r.status = Status.done) ∧
              exDay * 86400000 ≤ r.datetime ∧ r.datetime ≤ exDay * 86400000 + 86399999))).map
          (fun r => (r.services.map (fun s => exPrice s.name * s.quantity.getD 0)).sum)).sum :=
  ⟨by decide!, rfl, rfl,
   closeShiftJS_totalRevenue_eq_sum (dayEnd exDay) exDay exWorker [exR1, exR2] exCatalog
    [exOpenShift] exPrice ⟨200, Body.shift exClosedShift⟩ [exClosedShift]
    (by simp +decide [exCatalog, exPrice])
    (by
      intro r hr _ s hs
      simp only [List.mem_cons, List.mem_singleton, List.not_mem_nil, or_false] at hr
      rcases hr with rfl | rfl
      · simp only [exR1, List.mem_singleton] at hs
        subst hs
        exact ⟨⟨⟨"Wash", 20⟩, by simp [exCatalog], rfl⟩, 2, rfl, by norm_num⟩
      · simp only [exR2, List.mem_singleton] at hs
        subst hs
        exact ⟨⟨⟨"Wax", 15⟩, by simp [exCatalog], rfl⟩, 1, rfl, by norm_num⟩)
    (by decide!)
    (by decide!)
    rfl⟩

/-- A name that the catalog lacks and that is no inherited property adds the
amount 0. -/
theorem lineAmountJS_unknown_service (services : List Service) (s : ServiceItem)
    (hname : ∀ e ∈ services, e.name ≠ s.name) (hplain : s.name ∉ inheritedNames) :
    lineAmountJS services s = some (JSNumber.finite 0) := by
  have hpm := priceMap_absent services s.name hname
  have hread : priceMapRead services s.name = none := by
    simp [priceMapRead, hpm, hplain]
  simp [lineAmountJS, hread, priceOperand, jsMul, roundDouble]

set_option maxRecDepth 100000 in
/-- C4, the failing input: R6 holds a line item named `constructor`, which the
catalog lacks; the read of `priceMap` gives the inherited function, the total
is `NaN`, and the close of the open session answers 500 and writes nothing,
where the same reservation without that line item settles to 200 with the
revenue 55. -/
theorem closeShiftJS_inherited_name_fails :
    (∀ e ∈ exCatalog, e.name ≠ "constructor") ∧
    closeShiftJS (dayEnd exDay) exDay exWorker [exR6, exR2] exCatalog [exOpenShift]
      = some (⟨500, Body.message "Erreur lors de la fermeture de la journée"⟩, [exOpenShift]) ∧
    closeShiftJS (dayEnd exDay) exDay exWorker
        [withItems exR6 [{ name := "Wash", quantity := some 2 }], exR2] exCatalog [exOpenShift]
      = some (⟨200, Body.shift exClosedShift⟩, [exClosedShift]) := by
  refine ⟨by decide, by decide!, by decide!⟩

end Pff10
